import Mathlib

/-!
# Verification of the Vehicle Diagnostic Assistant backend

A shallow embedding of the repository (src/main.py, src/llm_client.py,
src/schemas.py) together with proofs about the claims of its natural
language specification.

Conventions of the embedding:

* Python strings are modelled as `List Char` (with `String` wrappers at
  the API boundary); `str.strip()` and `str.replace(pat, rep)` are
  re-implemented with the semantics of CPython (left-to-right,
  non-overlapping replacement without rescanning of replaced text;
  `strip` removes the ASCII whitespace characters).
* `json.loads` is modelled by a fuel-based recursive-descent parser
  producing the `Json` inductive type.  JSON numbers are restricted to
  integers (no fraction/exponent part) and string escapes to the
  single-character escapes; the schemas of this API use only strings,
  integers, arrays and objects, so the restriction is invisible to every
  input considered here.  Duplicate object keys follow the CPython dict
  semantics of `json.loads`: the first occurrence keeps its position,
  the last occurrence keeps its value.
* The outbound call to the LLM provider is modelled as an oracle: either
  a function `String → Option String` from the prompt to the response
  text, or directly an `Option String`, where `none` stands for a
  response object without a usable `text` attribute (the
  `AttributeError` case of the source).
* Exceptions are modelled by totality: a Python function that catches an
  exception and returns a value becomes a total Lean function; an
  exception that escapes a handler is the explicit `HandlerOutcome.crash`
  outcome.
-/

set_option maxRecDepth 100000

/-! ## Characters and Python string primitives -/

/-- The characters removed by Python `str.strip()` (ASCII part). -/
def isPyWs (c : Char) : Bool :=
  c = ' ' || c = '\t' || c = '\n' || c = '\r' || c = '\x0b' || c = '\x0c'

/-- The whitespace accepted around JSON tokens by `json.loads`. -/
def isJsonWs (c : Char) : Bool :=
  c = ' ' || c = '\t' || c = '\n' || c = '\r'

/-- `leadsWith pat s` holds when `pat` is an initial segment of `s`. -/
def leadsWith : List Char → List Char → Bool
  | [], _ => true
  | _ :: _, [] => false
  | p :: ps, c :: cs => p == c && leadsWith ps cs

/-- `hasPat pat s` holds when `pat` occurs as a contiguous substring of `s`. -/
def hasPat (pat : List Char) : List Char → Bool
  | [] => leadsWith pat []
  | c :: rest => leadsWith pat (c :: rest) || hasPat pat rest

/-- Remove the leading characters of `s` satisfying `q`
(the left half of Python `str.strip()`). -/
def stripLead (q : Char → Bool) : List Char → List Char
  | [] => []
  | c :: rest => if q c then stripLead q rest else c :: rest

/-- Remove the trailing characters of `s` satisfying `q`
(the right half of Python `str.strip()`). -/
def stripTrail (q : Char → Bool) : List Char → List Char
  | [] => []
  | c :: rest =>
    let r := stripTrail q rest
    if r = [] && q c then [] else c :: r

/-- Python `str.strip()` with no argument. -/
def pyStrip (s : List Char) : List Char :=
  stripLead isPyWs (stripTrail isPyWs s)

/-- Fuelled worker for Python `str.replace(pat, rep)`: scan left to
right, replace non-overlapping occurrences, never rescan replaced text.
One unit of fuel is spent per step, and each step consumes at least one
character, so fuel `s.length` is always sufficient. -/
def pyReplaceFuel (pat rep : List Char) : Nat → List Char → List Char
  | _, [] => []
  | 0, s => s
  | fuel + 1, c :: rest =>
    if leadsWith pat (c :: rest) then
      rep ++ pyReplaceFuel pat rep fuel (List.drop (pat.length - 1) rest)
    else
      c :: pyReplaceFuel pat rep fuel rest

/-- Python `str.replace(pat, rep)` (for a non-empty pattern). -/
def pyRepl (pat rep s : List Char) : List Char :=
  pyReplaceFuel pat rep s.length s

/-- The backtick character. -/
def tickChar : Char := '\x60'

/-- The markdown fence marker three backticks. -/
def tick3 : List Char := [tickChar, tickChar, tickChar]

/-- The markdown fence opener three backticks followed by `json`. -/
def tick7 : List Char := [tickChar, tickChar, tickChar, 'j', 's', 'o', 'n']

/-- The gateway text-cleaning step of `llm_client.py`:
`response.text.strip().replace("```json", "").replace("```", "").strip()`. -/
def cleanText (s : List Char) : List Char :=
  pyStrip (pyRepl tick3 [] (pyRepl tick7 [] (pyStrip s)))

/-! ## JSON values -/

/-- JSON values as produced by `json.loads` (numbers restricted to
integers, see the module comment). -/
inductive Json where
  | null : Json
  | bool : Bool → Json
  | num : Int → Json
  | str : String → Json
  | arr : List Json → Json
  | obj : List (String × Json) → Json

/-! ## The `json.loads` model -/

/-- Single-character JSON string escapes (`\uXXXX` is not modelled; no
input considered in this development uses it). -/
def escapeChar (c : Char) : Option Char :=
  if c = '"' then some '"'
  else if c = '\\' then some '\\'
  else if c = '/' then some '/'
  else if c = 'b' then some '\x08'
  else if c = 'f' then some '\x0c'
  else if c = 'n' then some '\n'
  else if c = 'r' then some '\r'
  else if c = 't' then some '\t'
  else none

/-- Parse the body of a JSON string literal, after the opening quote.
Returns the decoded characters and the input after the closing quote. -/
def parseStrBody : List Char → Option (List Char × List Char)
  | [] => none
  | c :: rest =>
    if c = '"' then some ([], rest)
    else if c = '\\' then
      match rest with
      | [] => none
      | e :: rest2 =>
        match escapeChar e, parseStrBody rest2 with
        | some ec, some (cs, rem) => some (ec :: cs, rem)
        | _, _ => none
    else if c.toNat < 32 then none
    else
      match parseStrBody rest with
      | some (cs, rem) => some (c :: cs, rem)
      | none => none

/-- Split a maximal run of decimal digits off the front of the input. -/
def takeDigits : List Char → List Char × List Char
  | [] => ([], [])
  | c :: rest =>
    if c.isDigit then
      let (ds, rem) := takeDigits rest
      (c :: ds, rem)
    else ([], c :: rest)

/-- Decimal value of a digit run. -/
def digitsToNat : List Char → Nat → Nat
  | [], acc => acc
  | c :: rest, acc => digitsToNat rest (acc * 10 + (c.toNat - 48))

/-- Parse the digits of a JSON integer (leading-zero rule included);
a following `.`, `e` or `E` would start a float, which this model does
not support and rejects. -/
def parseNumCore (s : List Char) : Option (Nat × List Char) :=
  match takeDigits s with
  | ([], _) => none
  | (d :: ds, rem) =>
    if d = '0' && !ds.isEmpty then none
    else
      match rem with
      | r :: _ =>
        if r = '.' || r = 'e' || r = 'E' then none
        else some (digitsToNat (d :: ds) 0, rem)
      | [] => some (digitsToNat (d :: ds) 0, [])

/-- Insert a key/value pair as CPython dict assignment does: an existing
key keeps its position and receives the new value, a new key is appended. -/
def insertKV : List (String × Json) → String → Json → List (String × Json)
  | [], k, v => [(k, v)]
  | (k0, v0) :: rest, k, v =>
    if k0 = k then (k0, v) :: rest else (k0, v0) :: insertKV rest k v

mutual
/-- Parse one JSON value (fuelled; one unit of fuel per grammar step,
each of which consumes at least one character). -/
def parseV : Nat → List Char → Option (Json × List Char)
  | 0, _ => none
  | fuel + 1, s0 =>
    match stripLead isJsonWs s0 with
    | [] => none
    | c :: rest =>
      if c = '\x7b' then parseMembers fuel (stripLead isJsonWs rest) true []
      else if c = '[' then parseElems fuel (stripLead isJsonWs rest) true []
      else if c = '"' then
        match parseStrBody rest with
        | some (cs, rem) => some (Json.str (String.mk cs), rem)
        | none => none
      else if c = 't' then
        if leadsWith ['r', 'u', 'e'] rest then some (Json.bool true, List.drop 3 rest)
        else none
      else if c = 'f' then
        if leadsWith ['a', 'l', 's', 'e'] rest then some (Json.bool false, List.drop 4 rest)
        else none
      else if c = 'n' then
        if leadsWith ['u', 'l', 'l'] rest then some (Json.null, List.drop 3 rest)
        else none
      else if c = '-' then
        match parseNumCore rest with
        | some (n, rem) => some (Json.num (-(n : Int)), rem)
        | none => none
      else
        match parseNumCore (c :: rest) with
        | some (n, rem) => some (Json.num (n : Int), rem)
        | none => none

/-- Parse the members of a JSON object after the opening brace (and any
following whitespace); `first` is true before the first member. -/
def parseMembers : Nat → List Char → Bool → List (String × Json) →
    Option (Json × List Char)
  | 0, _, _, _ => none
  | fuel + 1, s, first, acc =>
    match s with
    | [] => none
    | c :: rest =>
      if c = '\x7d' && first then some (Json.obj acc, rest)
      else if c = '"' then
        match parseStrBody rest with
        | some (kcs, rem1) =>
          match stripLead isJsonWs rem1 with
          | ':' :: rem2 =>
            match parseV fuel rem2 with
            | some (v, rem3) =>
              match stripLead isJsonWs rem3 with
              | ',' :: rem4 =>
                parseMembers fuel (stripLead isJsonWs rem4) false
                  (insertKV acc (String.mk kcs) v)
              | '\x7d' :: rem4 => some (Json.obj (insertKV acc (String.mk kcs) v), rem4)
              | _ => none
            | none => none
          | _ => none
        | none => none
      else none

/-- Parse the elements of a JSON array after the opening bracket (and
any following whitespace); `first` is true before the first element. -/
def parseElems : Nat → List Char → Bool → List Json → Option (Json × List Char)
  | 0, _, _, _ => none
  | fuel + 1, s, first, acc =>
    match s with
    | [] => none
    | c :: rest =>
      if c = ']' && first then some (Json.arr acc, rest)
      else
        match parseV fuel (c :: rest) with
        | some (v, rem1) =>
          match stripLead isJsonWs rem1 with
          | ',' :: rem2 => parseElems fuel (stripLead isJsonWs rem2) false (acc ++ [v])
          | ']' :: rem2 => some (Json.arr (acc ++ [v]), rem2)
          | _ => none
        | none => none
end

/-- The model of `json.loads`: parse exactly one JSON value surrounded
only by JSON whitespace. -/
def jsonLoads (s : List Char) : Option Json :=
  match parseV (4 * s.length + 16) s with
  | some (j, rem) => if stripLead isJsonWs rem = [] then some j else none
  | none => none

example : jsonLoads "5".toList = some (Json.num 5) := by rfl
example : jsonLoads "".toList = none := by rfl
example : jsonLoads "   ".toList = none := by rfl
example :
    jsonLoads "\x7b\"a\": [1, true, null, \"x\"]\x7d".toList =
      some (Json.obj [("a", Json.arr [Json.num 1, Json.bool true, Json.null, Json.str "x"])]) := by
  rfl

/-! ## Schema layer (src/schemas.py)

Pydantic `BaseModel` validation is modelled in its v2 lax mode: fields
are validated in declaration order, extra keys are ignored, a string
field accepts only strings, an integer field accepts integers and
numeric strings, a `Literal` field accepts exactly the enumerated
strings, and the raised `ValidationError` carries the human-readable
descriptions of all violations found, in field order.  The error text
itself is a modelled paraphrase (the exact wording lives inside the
pydantic library, not in this repository). -/

/-- The three-valued severity enumeration of `schemas.Severity.level`. -/
inductive SevLevel where
  | CRITICAL : SevLevel
  | CAUTION : SevLevel
  | INFORMATION : SevLevel
deriving DecidableEq

/-- Serialization of a severity level. -/
def SevLevel.toStr : SevLevel → String
  | .CRITICAL => "CRITICAL"
  | .CAUTION => "CAUTION"
  | .INFORMATION => "INFORMATION"

/-- `schemas.Vehicle`. -/
structure Vehicle where
  make : String
  model : String
  year : Int
deriving DecidableEq

/-- `schemas.Problem`. -/
structure Problem where
  name : String
  description : String
deriving DecidableEq

/-- `schemas.Severity`. -/
structure Severity where
  level : SevLevel
  message : String
deriving DecidableEq

/-- `schemas.EstimatedCost`. -/
structure EstimatedCost where
  range : String
  disclaimer : String
deriving DecidableEq

/-- `schemas.HistoryTurn.role` (`Literal["user", "assistant"]`). -/
inductive Role where
  | user : Role
  | assistant : Role
deriving DecidableEq

/-- Serialization of a role. -/
def Role.toStr : Role → String
  | .user => "user"
  | .assistant => "assistant"

/-- `schemas.HistoryTurn`. -/
structure HistoryTurn where
  role : Role
  content : String
deriving DecidableEq

/-- `schemas.ConversationTurnRequest`. -/
structure ConversationTurnRequest where
  vehicle : Vehicle
  history : List HistoryTurn
deriving DecidableEq

/-- `schemas.DiagnosticReportResponse`. -/
structure DiagnosticReportResponse where
  potential_problems : List Problem
  severity : Severity
  next_steps : List String
  estimated_cost : EstimatedCost
  disclaimers : List String
deriving DecidableEq

/-- Validation results: either a value or the list of violation
descriptions carried by the raised exception. -/
abbrev VRes (α : Type) : Type := Except (List String) α

/-- First binding of a key in a parsed JSON object (keys produced by
`jsonLoads` are unique, see `insertKV`). -/
def getField (kvs : List (String × Json)) (k : String) : Option Json :=
  match kvs with
  | [] => none
  | (k0, v0) :: rest => if k0 = k then some v0 else getField rest k

/-- Error component of a validation result. -/
def errsOf {α : Type} : VRes α → List String
  | .ok _ => []
  | .error es => es

/-- Combine two field validations, collecting the violations of both. -/
def merge2 {α β : Type} : VRes α → VRes β → VRes (α × β)
  | .ok a, .ok b => .ok (a, b)
  | .error e1, .error e2 => .error (e1 ++ e2)
  | .error e1, .ok _ => .error e1
  | .ok _, .error e2 => .error e2

/-- Validate a required field found under key `k`, reporting violations
under `path`: missing fields are reported as required, present fields
are validated by `f`. -/
def vSubField {α : Type} (kvs : List (String × Json)) (k path : String)
    (f : String → Json → VRes α) : VRes α :=
  match getField kvs k with
  | none => .error [path ++ ": Field required"]
  | some j => f path j

/-- A top-level required field: the violation path is the key itself. -/
def vField {α : Type} (kvs : List (String × Json)) (k : String)
    (f : String → Json → VRes α) : VRes α :=
  vSubField kvs k k f

/-- A string field accepts exactly JSON strings (pydantic v2 lax). -/
def vStr (path : String) : Json → VRes String
  | Json.str s => .ok s
  | _ => .error [path ++ ": Input should be a valid string"]

/-- Recognize an optionally signed run of decimal digits. -/
def decDigits : List Char → Option Int
  | [] => none
  | c :: rest =>
    let core : List Char → Option Int := fun ds =>
      match ds with
      | [] => none
      | _ => if ds.all Char.isDigit then some (digitsToNat ds 0 : Int) else none
    if c = '-' then (core rest).map (fun n => -n) else core (c :: rest)

/-- An integer field accepts integers and numeric strings
(pydantic v2 lax coercion). -/
def vInt (path : String) : Json → VRes Int
  | Json.num n => .ok n
  | Json.str s =>
    match decDigits s.toList with
    | some n => .ok n
    | none => .error [path ++ ": Input should be a valid integer"]
  | _ => .error [path ++ ": Input should be a valid integer"]

/-- The `Literal["CRITICAL", "CAUTION", "INFORMATION"]` field. -/
def vLevel (path : String) : Json → VRes SevLevel
  | Json.str s =>
    if s = "CRITICAL" then .ok .CRITICAL
    else if s = "CAUTION" then .ok .CAUTION
    else if s = "INFORMATION" then .ok .INFORMATION
    else .error [path ++ ": Input should be CRITICAL, CAUTION or INFORMATION"]
  | _ => .error [path ++ ": Input should be CRITICAL, CAUTION or INFORMATION"]

/-- Validate every element of a list, collecting all violations. -/
def vElems {α : Type} (f : Json → VRes α) : List Json → VRes (List α)
  | [] => .ok []
  | x :: xs => (merge2 (f x) (vElems f xs)).map (fun p => p.1 :: p.2)

/-- A `List[...]` field accepts exactly JSON arrays. -/
def vList {α : Type} (f : String → Json → VRes α) (path : String) : Json → VRes (List α)
  | Json.arr xs => vElems (f path) xs
  | _ => .error [path ++ ": Input should be a valid list"]

/-- Violation text for a nested model field applied to a non-object. -/
def notDictMsg (path : String) : List String :=
  [path ++ ": Input should be a valid dictionary"]

/-- Validation against `schemas.Problem`. -/
def vProblem (path : String) : Json → VRes Problem
  | Json.obj kvs =>
    match merge2 (vSubField kvs "name" (path ++ ".name") vStr)
        (vSubField kvs "description" (path ++ ".description") vStr) with
    | .ok (n, d) => .ok ⟨n, d⟩
    | .error es => .error es
  | _ => .error (notDictMsg path)

/-- Validation against `schemas.Severity`. -/
def vSeverity (path : String) : Json → VRes Severity
  | Json.obj kvs =>
    match merge2 (vSubField kvs "level" (path ++ ".level") vLevel)
        (vSubField kvs "message" (path ++ ".message") vStr) with
    | .ok (l, m) => .ok ⟨l, m⟩
    | .error es => .error es
  | _ => .error (notDictMsg path)

/-- Validation against `schemas.EstimatedCost`. -/
def vCost (path : String) : Json → VRes EstimatedCost
  | Json.obj kvs =>
    match merge2 (vSubField kvs "range" (path ++ ".range") vStr)
        (vSubField kvs "disclaimer" (path ++ ".disclaimer") vStr) with
    | .ok (r, d) => .ok ⟨r, d⟩
    | .error es => .error es
  | _ => .error (notDictMsg path)

/-- Violation text for `Model(**x)` applied to a non-mapping `x`
(the `TypeError` raised before pydantic validation starts). -/
def starArgMsg : String := "TypeError: argument after double-star must be a mapping"

/-- `DiagnosticReportResponse(**llm_result)`: validation of a parsed
JSON value against the report schema, every field in declaration order,
collecting the violations of all fields (the `merge2` chain concatenates
them left to right, so the resulting list is in field order). -/
def validateReport (j : Json) : VRes DiagnosticReportResponse :=
  match j with
  | Json.obj kvs =>
    Except.map
      (fun x => ⟨x.1.1.1.1, x.1.1.1.2, x.1.1.2, x.1.2, x.2⟩)
      (merge2 (merge2 (merge2 (merge2
        (vField kvs "potential_problems" (vList vProblem))
        (vField kvs "severity" vSeverity))
        (vField kvs "next_steps" (vList vStr)))
        (vField kvs "estimated_cost" vCost))
        (vField kvs "disclaimers" (vList vStr)))
  | _ => .error [starArgMsg]

/-- `Vehicle(**llm_result)`: validation of a parsed JSON value against
the vehicle schema. -/
def validateVehicle (j : Json) : VRes Vehicle :=
  match j with
  | Json.obj kvs =>
    Except.map
      (fun x => ⟨x.1.1, x.1.2, x.2⟩)
      (merge2 (merge2
        (vField kvs "make" vStr)
        (vField kvs "model" vStr))
        (vField kvs "year" vInt))
  | _ => .error [starArgMsg]

/-! ### Serialization back to JSON (the success response body) -/

/-- Serialization of a `Problem`. -/
def problemToJson (p : Problem) : Json :=
  Json.obj [("name", Json.str p.name), ("description", Json.str p.description)]

/-- Serialization of a `Severity`. -/
def severityToJson (s : Severity) : Json :=
  Json.obj [("level", Json.str s.level.toStr), ("message", Json.str s.message)]

/-- Serialization of an `EstimatedCost`. -/
def costToJson (c : EstimatedCost) : Json :=
  Json.obj [("range", Json.str c.range), ("disclaimer", Json.str c.disclaimer)]

/-- Serialization of a `DiagnosticReportResponse`, fields in declaration
order, as the hosting layer produces the success body. -/
def reportToJson (r : DiagnosticReportResponse) : Json :=
  Json.obj
    [("potential_problems", Json.arr (r.potential_problems.map problemToJson)),
     ("severity", severityToJson r.severity),
     ("next_steps", Json.arr (r.next_steps.map Json.str)),
     ("estimated_cost", costToJson r.estimated_cost),
     ("disclaimers", Json.arr (r.disclaimers.map Json.str))]

/-- Serialization of a `Vehicle`. -/
def vehicleToJson (v : Vehicle) : Json :=
  Json.obj [("make", Json.str v.make), ("model", Json.str v.model), ("year", Json.num v.year)]

/-! ### The exact shapes of the data model (spec section 3) -/

/-- A JSON value of the `Problem` shape. -/
def isProblemJson : Json → Bool
  | Json.obj [("name", Json.str _), ("description", Json.str _)] => true
  | _ => false

/-- A JSON value of the `Severity` shape, level in the enumeration. -/
def isSeverityJson : Json → Bool
  | Json.obj [("level", Json.str l), ("message", Json.str _)] =>
    l = "CRITICAL" || l = "CAUTION" || l = "INFORMATION"
  | _ => false

/-- A JSON value of the `EstimatedCost` shape. -/
def isCostJson : Json → Bool
  | Json.obj [("range", Json.str _), ("disclaimer", Json.str _)] => true
  | _ => false

/-- A JSON string. -/
def isStrJson : Json → Bool
  | Json.str _ => true
  | _ => false

/-- A JSON value that fully satisfies the `DiagnosticReport` shape:
exactly the five documented fields, in the order of the prompt contract
and of the schema declaration, each of the documented type. -/
def conformsReport : Json → Bool
  | Json.obj [("potential_problems", Json.arr ps), ("severity", sv),
      ("next_steps", Json.arr ns), ("estimated_cost", ec), ("disclaimers", Json.arr ds)] =>
    ps.all isProblemJson && isSeverityJson sv && ns.all isStrJson &&
      isCostJson ec && ds.all isStrJson
  | _ => false

/-- A JSON value that fully satisfies the `Vehicle` shape. -/
def conformsVehicle : Json → Bool
  | Json.obj [("make", Json.str _), ("model", Json.str _), ("year", Json.num _)] => true
  | _ => false

/-! ## LLM gateway (src/llm_client.py) -/

/-- Failure message of `get_diagnostic_from_llm`. -/
def diagConvFailMsg : String :=
  "The diagnostic assistant failed to generate a valid response. Please try again."

/-- Failure message of `get_image_diagnostic_from_llm`. -/
def diagImageFailMsg : String :=
  "The diagnostic assistant failed to generate a valid response from the image."

/-- Failure message of `get_vehicle_info_from_image`. -/
def vinImageFailMsg : String :=
  "Could not identify the vehicle from the provided image. Please try again or enter manually."

/-- Failure message of `get_vehicle_info_from_text`. -/
def vinTextFailMsg : String :=
  "Could not identify the vehicle from the provided text. Please try again."

/-- The error structure returned by every gateway function on failure. -/
def gatewayErrObj (msg : String) : Json :=
  Json.obj [("error", Json.str msg)]

/-- The shared tail of every gateway function: read the `text`
attribute of the response (`none` models its absence), clean it, parse
it as JSON, and collapse the `JSONDecodeError`/`AttributeError` cases
into the operation-specific error structure. -/
def gatewayParse (failMsg : String) (responseText : Option String) : Json :=
  match responseText with
  | none => gatewayErrObj failMsg
  | some t =>
    match jsonLoads (cleanText t.toList) with
    | some j => j
    | none => gatewayErrObj failMsg

/-- Concatenation with separator, Python `sep.join(parts)`. -/
def joinSep (sep : String) : List String → String
  | [] => ""
  | [x] => x
  | x :: y :: rest => x ++ sep ++ joinSep sep (y :: rest)

/-- The `chat_history_str` of `get_diagnostic_from_llm`:
`"\n".join(f"{turn.role}: {turn.content}" for turn in history)`. -/
def chatHistoryStr (history : List HistoryTurn) : String :=
  joinSep "\n" (history.map (fun t => t.role.toStr ++ ": " ++ t.content))

/-- The `user_prompt` f-string of `get_diagnostic_from_llm`
(triple-quoted, with its literal newlines and indentation). -/
def buildDiagUserPrompt (vehicle : Vehicle) (history : List HistoryTurn) : String :=
  "\n    Vehicle: " ++ toString vehicle.year ++ " " ++ vehicle.make ++ " " ++
    vehicle.model ++ "\n    Conversation History:\n    " ++
    chatHistoryStr history ++ "\n    "

/-- `llm_client.get_diagnostic_from_llm`, with the LLM call modelled by
the oracle `respond` from the user prompt to the response text. -/
def get_diagnostic_from_llm (respond : String → Option String)
    (vehicle : Vehicle) (history : List HistoryTurn) : Json :=
  gatewayParse diagConvFailMsg (respond (buildDiagUserPrompt vehicle history))

/-- `llm_client.get_image_diagnostic_from_llm`; the image payload is
opaque to everything this development proves, so the oracle is the
response text itself. -/
def get_image_diagnostic_from_llm (responseText : Option String) : Json :=
  gatewayParse diagImageFailMsg responseText

/-- `llm_client.get_vehicle_info_from_image`; oracle as above. -/
def get_vehicle_info_from_image (responseText : Option String) : Json :=
  gatewayParse vinImageFailMsg responseText

/-- `llm_client.get_vehicle_info_from_text`; the user text is sent to
the model verbatim as the prompt. -/
def get_vehicle_info_from_text (respond : String → Option String)
    (user_text : String) : Json :=
  gatewayParse vinTextFailMsg (respond user_text)

/-! ## Request handlers (src/main.py) -/

/-- Outcome of one handler invocation: a validated success body, an
`HTTPException` with status code and `detail` payload (the `ErrorPayload`
of the spec), or an exception that escapes the handler (no
`HTTPException` and no `ErrorPayload` is produced). -/
inductive HandlerOutcome (α : Type) where
  | success : α → HandlerOutcome α
  | failure : Nat → Json → HandlerOutcome α
  | crash : HandlerOutcome α

/-- Python `"error" in llm_result`: key membership for a dict, element
membership for a list, substring test for a string, and a `TypeError`
(`none`) for the remaining JSON values. -/
def errMembership : Json → Option Bool
  | Json.obj kvs => some (kvs.any (fun kv => kv.1 = "error"))
  | Json.arr xs =>
    some (xs.any (fun x => match x with | Json.str t => t = "error" | _ => false))
  | Json.str s => some (hasPat "error".toList s.toList)
  | _ => none

/-- Python `llm_result["error"]`: defined for dicts only; for a list or
a string the subscript raises a `TypeError` (`none`). -/
def errSubscript : Json → Option Json
  | Json.obj kvs => getField kvs "error"
  | _ => none

/-- Malformed-report message of the two diagnostic handlers. -/
def malformedReportMsg : String :=
  "Diagnostic assistant returned a malformed report. Please try again."

/-- Malformed-vehicle message of the two identification handlers. -/
def malformedVehicleMsg : String := "The assistant returned malformed vehicle data."

/-- The shared handler logic of the two diagnostic endpoints: the
`"error" in llm_result` guard, then pydantic validation inside
`try`/`except`. -/
def handleDiag (llmResult : Json) : HandlerOutcome DiagnosticReportResponse :=
  match errMembership llmResult with
  | none => .crash
  | some true =>
    match errSubscript llmResult with
    | some v => .failure 500 v
    | none => .crash
  | some false =>
    match validateReport llmResult with
    | .ok r => .success r
    | .error _ => .failure 500 (Json.str malformedReportMsg)

/-- The shared handler logic of the two vehicle-identification
endpoints. -/
def handleVehicle (llmResult : Json) : HandlerOutcome Vehicle :=
  match errMembership llmResult with
  | none => .crash
  | some true =>
    match errSubscript llmResult with
    | some v => .failure 500 v
    | none => .crash
  | some false =>
    match validateVehicle llmResult with
    | .ok r => .success r
    | .error _ => .failure 500 (Json.str malformedVehicleMsg)

/-- `main.diagnose_from_conversation`. -/
def diagnose_from_conversation (respond : String → Option String)
    (request : ConversationTurnRequest) : HandlerOutcome DiagnosticReportResponse :=
  handleDiag (get_diagnostic_from_llm respond request.vehicle request.history)

/-- `main.diagnose_from_image` (the uploaded bytes and form fields only
shape the prompt, which the response oracle absorbs). -/
def diagnose_from_image (responseText : Option String) :
    HandlerOutcome DiagnosticReportResponse :=
  handleDiag (get_image_diagnostic_from_llm responseText)

/-- `main.identify_vehicle_from_image`. -/
def identify_vehicle_from_image (responseText : Option String) : HandlerOutcome Vehicle :=
  handleVehicle (get_vehicle_info_from_image responseText)

/-- `main.identify_vehicle_from_text`. -/
def identify_vehicle_from_text (respond : String → Option String)
    (query : String) : HandlerOutcome Vehicle :=
  handleVehicle (get_vehicle_info_from_text respond query)

/-! ## Auxiliary definitions used by the statements -/

/-- Number of leading backticks of a string. -/
def leadTicks : List Char → Nat
  | [] => 0
  | c :: rest => if c = tickChar then leadTicks rest + 1 else 0

/-- The markdown-fenced form of a payload, `"```json\n" + p + "\n```"`. -/
def fenceWrap (p : List Char) : List Char :=
  tick7 ++ '\n' :: (p ++ '\n' :: tick3)

/-- A gateway response from which no JSON can be extracted: either there
is no `text` attribute at all (`none`), or the cleaned text does not
parse. -/
def badResp (rt : Option String) : Prop :=
  ∀ t : String, rt = some t → jsonLoads (cleanText t.toList) = none

/-- The invariant of one handler outcome: a success body satisfies
`conf`, an `ErrorPayload` carries the server-error status 500, and an
escaped exception produces no response body at all. -/
def outcomeInv {α : Type} (conf : α → Bool) : HandlerOutcome α → Prop
  | .success r => conf r = true
  | .failure code _ => code = 500
  | .crash => True

/-- A validation result whose failure, if any, carries at least one
violation description. -/
def neErr {α : Type} (r : VRes α) : Prop :=
  ∀ es : List String, r = .error es → es ≠ []

example : fenceWrap "hi".toList = "\x60\x60\x60json\nhi\n\x60\x60\x60".toList := by rfl

example :
    cleanText "\x60\x60\x60json\n\x7b\"a\": 1\x7d\n\x60\x60\x60".toList =
      "\x7b\"a\": 1\x7d".toList := by rfl

example :
    get_vehicle_info_from_text (fun _ => some "\x7b\"make\": \"Toyota\", \"model\": \"Camry\", \"year\": 2018\x7d")
      "I drive a red 2018 Toyota Camry" =
    Json.obj [("make", Json.str "Toyota"), ("model", Json.str "Camry"), ("year", Json.num 2018)] := by
  rfl

example :
    identify_vehicle_from_text (fun _ => some "\x7b\"make\": \"Toyota\", \"model\": \"Camry\", \"year\": 2018\x7d")
      "I drive a red 2018 Toyota Camry" =
    HandlerOutcome.success ⟨"Toyota", "Camry", 2018⟩ := by
  rfl

/-! ## Gateway and handler lemmas -/

/-- On a bad response the gateway collapses to its error structure. -/
theorem gatewayParse_bad {m : String} {rt : Option String} (h : badResp rt) :
    gatewayParse m rt = gatewayErrObj m := by
  cases rt with
  | none => rfl
  | some t =>
    have ht := h t rfl
    simp only [String.toList] at ht
    simp [gatewayParse, ht]

/-- The diagnostic handler on the gateway error structure. -/
theorem handleDiag_errObj (m : String) :
    handleDiag (gatewayErrObj m) = .failure 500 (Json.str m) := rfl

/-- The vehicle handler on the gateway error structure. -/
theorem handleVehicle_errObj (m : String) :
    handleVehicle (gatewayErrObj m) = .failure 500 (Json.str m) := rfl

/-- A found key makes the membership test true. -/
theorem any_key_of_getField {kvs : List (String × Json)} {k : String} {v : Json}
    (h : getField kvs k = some v) : (kvs.any (fun kv => kv.1 = k)) = true := by
  induction kvs with
  | nil => simp [getField] at h
  | cons p rest ih =>
    obtain ⟨k0, v0⟩ := p
    by_cases h0 : k0 = k
    · simp only [List.any_cons, h0]
      simp
    · simp only [getField, h0, if_false] at h
      simp only [List.any_cons, ih h]
      simp


/-- C2: for every LLM response whose `text` attribute is absent or whose
cleaned text is not valid JSON (including a whitespace-only response),
each of the four gateway functions returns the error structure tagged
with its operation-specific message, the four messages are pairwise
distinct, and no parse or attribute-access exception reaches the caller
(the gateway functions are total and always return a value). -/
theorem gateway_failure_tagged :
    (∀ (respond : String → Option String) (v : Vehicle) (hist : List HistoryTurn),
        badResp (respond (buildDiagUserPrompt v hist)) →
        get_diagnostic_from_llm respond v hist = gatewayErrObj diagConvFailMsg) ∧
    (∀ rt : Option String, badResp rt →
        get_image_diagnostic_from_llm rt = gatewayErrObj diagImageFailMsg) ∧
    (∀ rt : Option String, badResp rt →
        get_vehicle_info_from_image rt = gatewayErrObj vinImageFailMsg) ∧
    (∀ (respond : String → Option String) (q : String), badResp (respond q) →
        get_vehicle_info_from_text respond q = gatewayErrObj vinTextFailMsg) ∧
    (diagConvFailMsg ≠ diagImageFailMsg ∧ diagConvFailMsg ≠ vinImageFailMsg ∧
     diagConvFailMsg ≠ vinTextFailMsg ∧ diagImageFailMsg ≠ vinImageFailMsg ∧
     diagImageFailMsg ≠ vinTextFailMsg ∧ vinImageFailMsg ≠ vinTextFailMsg) :=
  ⟨fun _ _ _ h => gatewayParse_bad h,
   fun _ h => gatewayParse_bad h,
   fun _ h => gatewayParse_bad h,
   fun _ _ h => gatewayParse_bad h,
   by decide, by decide, by decide, by decide, by decide, by decide⟩

/-- Witness for C2: a whitespace-only response text and an absent
`text` attribute, on concrete inputs, produce the tagged failures. -/
theorem gateway_failure_tagged_witness :
    get_diagnostic_from_llm (fun _ => some "   ") ⟨"Honda", "Civic", 2015⟩ [] =
      gatewayErrObj diagConvFailMsg ∧
    get_image_diagnostic_from_llm (some "not json") = gatewayErrObj diagImageFailMsg ∧
    get_vehicle_info_from_image none = gatewayErrObj vinImageFailMsg ∧
    get_vehicle_info_from_text (fun _ => some "") "a red car" =
      gatewayErrObj vinTextFailMsg :=
  ⟨gateway_failure_tagged.1 _ _ _
      (fun t ht => by injection ht with h2; subst h2; rfl),
   gateway_failure_tagged.2.1 _
      (fun t ht => by injection ht with h2; subst h2; rfl),
   gateway_failure_tagged.2.2.1 _ (fun t ht => by cases ht),
   gateway_failure_tagged.2.2.2.1 _ _
      (fun t ht => by injection ht with h2; subst h2; rfl)⟩

/-- C6: whenever the gateway reports failure, each handler surfaces the
gateway message as an `ErrorPayload` with server-error status 500 at
once; the returned detail is the gateway message, not the (distinct)
validation-failure message, so schema validation plays no part in the
response. -/
theorem handler_gateway_failure_immediate :
    (∀ (respond : String → Option String) (req : ConversationTurnRequest),
        badResp (respond (buildDiagUserPrompt req.vehicle req.history)) →
        diagnose_from_conversation respond req =
          .failure 500 (Json.str diagConvFailMsg)) ∧
    (∀ rt : Option String, badResp rt →
        diagnose_from_image rt = .failure 500 (Json.str diagImageFailMsg)) ∧
    (∀ rt : Option String, badResp rt →
        identify_vehicle_from_image rt = .failure 500 (Json.str vinImageFailMsg)) ∧
    (∀ (respond : String → Option String) (q : String), badResp (respond q) →
        identify_vehicle_from_text respond q =
          .failure 500 (Json.str vinTextFailMsg)) ∧
    (diagConvFailMsg ≠ malformedReportMsg ∧ diagImageFailMsg ≠ malformedReportMsg ∧
     vinImageFailMsg ≠ malformedVehicleMsg ∧ vinTextFailMsg ≠ malformedVehicleMsg) := by
  refine ⟨?_, ?_, ?_, ?_, by decide, by decide, by decide, by decide⟩
  · intro respond req h
    show handleDiag (gatewayParse diagConvFailMsg _) = _
    rw [gatewayParse_bad h, handleDiag_errObj]
  · intro rt h
    show handleDiag (gatewayParse diagImageFailMsg _) = _
    rw [gatewayParse_bad h, handleDiag_errObj]
  · intro rt h
    show handleVehicle (gatewayParse vinImageFailMsg _) = _
    rw [gatewayParse_bad h, handleVehicle_errObj]
  · intro respond q h
    show handleVehicle (gatewayParse vinTextFailMsg _) = _
    rw [gatewayParse_bad h, handleVehicle_errObj]

/-- Witness for C6: concrete gateway failures surface the gateway
message with status 500 in all four handlers. -/
theorem handler_gateway_failure_immediate_witness :
    diagnose_from_conversation (fun _ => none) ⟨⟨"Ford", "F-150", 2019⟩, []⟩ =
      .failure 500 (Json.str diagConvFailMsg) ∧
    diagnose_from_image (some "oops") = .failure 500 (Json.str diagImageFailMsg) ∧
    identify_vehicle_from_image (some "") = .failure 500 (Json.str vinImageFailMsg) ∧
    identify_vehicle_from_text (fun _ => none) "a bike" =
      .failure 500 (Json.str vinTextFailMsg) :=
  ⟨handler_gateway_failure_immediate.1 _ _ (fun t ht => by cases ht),
   handler_gateway_failure_immediate.2.1 _
      (fun t ht => by injection ht with h2; subst h2; rfl),
   handler_gateway_failure_immediate.2.2.1 _
      (fun t ht => by injection ht with h2; subst h2; rfl),
   handler_gateway_failure_immediate.2.2.2.1 _ _ (fun t ht => by cases ht)⟩

/-- C10: a parsed JSON object with an `"error"` key — even one that
also carries all the fields of a valid report or vehicle — is treated
as a gateway failure: the handler returns an `ErrorPayload` whose
detail is exactly the value stored under `"error"`, and the
otherwise-valid data is never returned. -/
theorem error_key_dominates :
    ∀ (kvs : List (String × Json)) (v : Json), getField kvs "error" = some v →
      handleDiag (Json.obj kvs) = .failure 500 v ∧
      handleVehicle (Json.obj kvs) = .failure 500 v := by
  intro kvs v h
  have hmem := any_key_of_getField h
  constructor
  · simp [handleDiag, errMembership, hmem, errSubscript, h]
  · simp [handleVehicle, errMembership, hmem, errSubscript, h]

/-- Witness for C10: an object containing every field of a fully valid
report together with an `"error"` key yields the `"error"` value as the
failure detail, in both handler families. -/
theorem error_key_dominates_witness :
    handleDiag (Json.obj
      [("potential_problems", Json.arr [Json.obj
          [("name", Json.str "Dead battery"), ("description", Json.str "No crank")]]),
       ("severity", Json.obj [("level", Json.str "CRITICAL"), ("message", Json.str "Stop")]),
       ("next_steps", Json.arr [Json.str "Jump start"]),
       ("estimated_cost", Json.obj [("range", Json.str "$100-$200"),
          ("disclaimer", Json.str "Rough estimate")]),
       ("disclaimers", Json.arr []),
       ("error", Json.str "I cannot diagnose this")]) =
      .failure 500 (Json.str "I cannot diagnose this") ∧
    handleVehicle (Json.obj
      [("make", Json.str "Honda"), ("model", Json.str "Civic"),
       ("year", Json.num 2015), ("error", Json.str "No VIN found")]) =
      .failure 500 (Json.str "No VIN found") :=
  ⟨(error_key_dominates _ _ (by rfl)).1, (error_key_dominates _ _ (by rfl)).2⟩

/-- C3: when a handler reaches schema validation (its `"error"`
membership test on the parsed gateway JSON is false) and validation
fails, it returns the generic malformed-data `ErrorPayload` with
server-error status 500 — a fixed message distinct from every gateway
failure message; neither the raw JSON nor a partial report appears in
the response. -/
theorem validation_failure_malformed :
    (∀ (j : Json) (es : List String), errMembership j = some false →
        validateReport j = .error es →
        handleDiag j = .failure 500 (Json.str malformedReportMsg)) ∧
    (∀ (j : Json) (es : List String), errMembership j = some false →
        validateVehicle j = .error es →
        handleVehicle j = .failure 500 (Json.str malformedVehicleMsg)) ∧
    (malformedReportMsg ≠ diagConvFailMsg ∧ malformedReportMsg ≠ diagImageFailMsg ∧
     malformedReportMsg ≠ vinImageFailMsg ∧ malformedReportMsg ≠ vinTextFailMsg ∧
     malformedVehicleMsg ≠ diagConvFailMsg ∧ malformedVehicleMsg ≠ diagImageFailMsg ∧
     malformedVehicleMsg ≠ vinImageFailMsg ∧ malformedVehicleMsg ≠ vinTextFailMsg) := by
  refine ⟨?_, ?_, by decide, by decide, by decide, by decide,
    by decide, by decide, by decide, by decide⟩
  · intro j es h1 h2
    simp [handleDiag, h1, h2]
  · intro j es h1 h2
    simp [handleVehicle, h1, h2]

/-- Witness for C3: the gateway result `{"foo": "bar"}` (and a
vehicle-shaped failure) yield the malformed-data payloads. -/
theorem validation_failure_malformed_witness :
    handleDiag (Json.obj [("foo", Json.str "bar")]) =
      .failure 500 (Json.str malformedReportMsg) ∧
    handleVehicle (Json.obj [("make", Json.str "Honda")]) =
      .failure 500 (Json.str malformedVehicleMsg) :=
  ⟨validation_failure_malformed.1 _
      ["potential_problems: Field required", "severity: Field required",
       "next_steps: Field required", "estimated_cost: Field required",
       "disclaimers: Field required"] rfl rfl,
   validation_failure_malformed.2.1 _
      ["model: Field required", "year: Field required"] rfl rfl⟩

/-- C8: any two gateway results that reach schema validation and fail
it — for whatever different reasons — produce the identical generic
malformed-data message: the handler response never depends on the
specific violation (which the source only prints to the operator log). -/
theorem validation_failure_uniform :
    (∀ (j1 j2 : Json) (es1 es2 : List String),
        errMembership j1 = some false → errMembership j2 = some false →
        validateReport j1 = .error es1 → validateReport j2 = .error es2 →
        handleDiag j1 = handleDiag j2 ∧
        handleDiag j1 = .failure 500 (Json.str malformedReportMsg)) ∧
    (∀ (j1 j2 : Json) (es1 es2 : List String),
        errMembership j1 = some false → errMembership j2 = some false →
        validateVehicle j1 = .error es1 → validateVehicle j2 = .error es2 →
        handleVehicle j1 = handleVehicle j2 ∧
        handleVehicle j1 = .failure 500 (Json.str malformedVehicleMsg)) := by
  constructor
  · intro j1 j2 es1 es2 hm1 hm2 hv1 hv2
    have e1 : handleDiag j1 = .failure 500 (Json.str malformedReportMsg) := by
      simp [handleDiag, hm1, hv1]
    have e2 : handleDiag j2 = .failure 500 (Json.str malformedReportMsg) := by
      simp [handleDiag, hm2, hv2]
    exact ⟨e1.trans e2.symm, e1⟩
  · intro j1 j2 es1 es2 hm1 hm2 hv1 hv2
    have e1 : handleVehicle j1 = .failure 500 (Json.str malformedVehicleMsg) := by
      simp [handleVehicle, hm1, hv1]
    have e2 : handleVehicle j2 = .failure 500 (Json.str malformedVehicleMsg) := by
      simp [handleVehicle, hm2, hv2]
    exact ⟨e1.trans e2.symm, e1⟩

/-- Witness for C8: two gateway results failing validation for
different reasons (a wrongly typed field beside missing ones, versus an
empty object) give byte-identical responses. -/
theorem validation_failure_uniform_witness :
    handleDiag (Json.obj [("severity", Json.num 1)]) = handleDiag (Json.obj []) ∧
    handleDiag (Json.obj [("severity", Json.num 1)]) =
      .failure 500 (Json.str malformedReportMsg) :=
  validation_failure_uniform.1 _ _
    ["potential_problems: Field required",
     "severity: Input should be a valid dictionary",
     "next_steps: Field required", "estimated_cost: Field required",
     "disclaimers: Field required"]
    ["potential_problems: Field required", "severity: Field required",
     "next_steps: Field required", "estimated_cost: Field required",
     "disclaimers: Field required"] rfl rfl rfl rfl

/-! ## Validation-error lemmas -/

/-- String-field violations are nonempty. -/
theorem neErr_vStr (p : String) (j : Json) : neErr (vStr p j) := by
  intro es h
  cases j <;> simp only [vStr] at h <;>
    first
    | (injection h with h2; subst h2; simp)
    | simp at h

/-- Integer-field violations are nonempty. -/
theorem neErr_vInt (p : String) (j : Json) : neErr (vInt p j) := by
  intro es h
  cases j <;> simp only [vInt] at h
  all_goals try split at h
  all_goals first
    | (injection h with h2; subst h2; simp)
    | simp at h

/-- Literal-field violations are nonempty. -/
theorem neErr_vLevel (p : String) (j : Json) : neErr (vLevel p j) := by
  intro es h
  cases j <;> simp only [vLevel] at h
  all_goals try split at h
  all_goals try split at h
  all_goals try split at h
  all_goals first
    | (injection h with h2; subst h2; simp)
    | simp at h

/-- Combined violations of two fields are nonempty. -/
theorem neErr_merge2 {α β : Type} {a : VRes α} {b : VRes β}
    (ha : neErr a) (hb : neErr b) : neErr (merge2 a b) := by
  intro es h
  cases a with
  | error e1 =>
    cases b with
    | error e2 =>
      simp only [merge2] at h
      injection h with h2
      subst h2
      intro hh
      exact ha e1 rfl (List.append_eq_nil.mp hh).1
    | ok _ =>
      simp only [merge2] at h
      injection h with h2
      subst h2
      exact ha e1 rfl
  | ok a0 =>
    cases b with
    | error e2 =>
      simp only [merge2] at h
      injection h with h2
      subst h2
      exact hb e2 rfl
    | ok _ => simp [merge2] at h

/-- Mapping the success value does not change the violations. -/
theorem neErr_map {α β : Type} {r : VRes α} (g : α → β)
    (h : neErr r) : neErr (Except.map g r) := by
  intro es hh
  cases r with
  | error e =>
    simp only [Except.map] at hh
    injection hh with h2
    subst h2
    exact h e rfl
  | ok a => simp [Except.map] at hh

/-- Element-wise violations of a list are nonempty. -/
theorem neErr_vElems {α : Type} {f : Json → VRes α}
    (hf : ∀ x, neErr (f x)) : ∀ l : List Json, neErr (vElems f l) := by
  intro l
  induction l with
  | nil => intro es h; simp [vElems] at h
  | cons x xs ih =>
    intro es h
    simp only [vElems] at h
    exact neErr_map _ (neErr_merge2 (hf x) ih) es h

/-- List-field violations are nonempty. -/
theorem neErr_vList {α : Type} {f : String → Json → VRes α}
    (hf : ∀ p x, neErr (f p x)) (p : String) (j : Json) : neErr (vList f p j) := by
  intro es h
  cases j <;> simp only [vList] at h
  case arr => exact neErr_vElems (hf p) _ es h
  all_goals (injection h with h2; subst h2; simp)

/-- Required-field violations are nonempty. -/
theorem neErr_vSubField {α : Type} {f : String → Json → VRes α}
    (hf : ∀ k j, neErr (f k j)) (kvs : List (String × Json)) (k path : String) :
    neErr (vSubField kvs k path f) := by
  intro es h
  rcases hg : getField kvs k with _ | j <;> simp only [vSubField, hg] at h
  · injection h with h2
    subst h2
    simp
  · exact hf path j es h

/-- Top-level required-field violations are nonempty. -/
theorem neErr_vField {α : Type} {f : String → Json → VRes α}
    (hf : ∀ k j, neErr (f k j)) (kvs : List (String × Json)) (k : String) :
    neErr (vField kvs k f) := neErr_vSubField hf kvs k k

/-- Nested-model violations are nonempty: `Problem`. -/
theorem neErr_vProblem (p : String) (j : Json) : neErr (vProblem p j) := by
  intro es h
  cases j <;> simp only [vProblem] at h
  case obj kvs =>
    split at h
    · simp at h
    · injection h with h2
      subst h2
      rename_i es0 heq
      exact neErr_merge2
        (neErr_vSubField (fun k j => neErr_vStr k j) kvs "name" (p ++ ".name"))
        (neErr_vSubField (fun k j => neErr_vStr k j) kvs "description" (p ++ ".description")) es0 heq
  all_goals (injection h with h2; subst h2; simp [notDictMsg])

/-- Nested-model violations are nonempty: `Severity`. -/
theorem neErr_vSeverity (p : String) (j : Json) : neErr (vSeverity p j) := by
  intro es h
  cases j <;> simp only [vSeverity] at h
  case obj kvs =>
    split at h
    · simp at h
    · injection h with h2
      subst h2
      rename_i es0 heq
      exact neErr_merge2
        (neErr_vSubField (fun k j => neErr_vLevel k j) kvs "level" (p ++ ".level"))
        (neErr_vSubField (fun k j => neErr_vStr k j) kvs "message" (p ++ ".message")) es0 heq
  all_goals (injection h with h2; subst h2; simp [notDictMsg])

/-- Nested-model violations are nonempty: `EstimatedCost`. -/
theorem neErr_vCost (p : String) (j : Json) : neErr (vCost p j) := by
  intro es h
  cases j <;> simp only [vCost] at h
  case obj kvs =>
    split at h
    · simp at h
    · injection h with h2
      subst h2
      rename_i es0 heq
      exact neErr_merge2
        (neErr_vSubField (fun k j => neErr_vStr k j) kvs "range" (p ++ ".range"))
        (neErr_vSubField (fun k j => neErr_vStr k j) kvs "disclaimer" (p ++ ".disclaimer")) es0 heq
  all_goals (injection h with h2; subst h2; simp [notDictMsg])

/-- The violations of a combined validation are those of its parts. -/
theorem errsOf_merge2 {α β : Type} (a : VRes α) (b : VRes β) :
    errsOf (merge2 a b) = errsOf a ++ errsOf b := by
  cases a <;> cases b <;> simp [merge2, errsOf]

/-- Mapping the success value leaves the violations unchanged. -/
theorem errsOf_map {α β : Type} (g : α → β) (r : VRes α) :
    errsOf (Except.map g r) = errsOf r := by
  cases r <;> simp [Except.map, errsOf]

/-- An error result is determined by its violations. -/
theorem error_eq_of_errsOf {α : Type} {r : VRes α} {es : List String}
    (h : r = .error es) : errsOf r = es := by
  subst h; rfl

/-- Report-validation violations are nonempty. -/
theorem neErr_validateReport (j : Json) : neErr (validateReport j) := by
  intro es h
  cases j <;> simp only [validateReport] at h
  case obj kvs =>
    exact neErr_map _
      (neErr_merge2 (neErr_merge2 (neErr_merge2 (neErr_merge2
        (neErr_vField (fun k j => neErr_vList neErr_vProblem k j) kvs
          "potential_problems")
        (neErr_vField neErr_vSeverity kvs "severity"))
        (neErr_vField (fun k j => neErr_vList neErr_vStr k j) kvs "next_steps"))
        (neErr_vField neErr_vCost kvs "estimated_cost"))
        (neErr_vField (fun k j => neErr_vList neErr_vStr k j) kvs "disclaimers"))
      es h
  all_goals (injection h with h2; subst h2; simp)

/-- Vehicle-validation violations are nonempty. -/
theorem neErr_validateVehicle (j : Json) : neErr (validateVehicle j) := by
  intro es h
  cases j <;> simp only [validateVehicle] at h
  case obj kvs =>
    exact neErr_map _
      (neErr_merge2 (neErr_merge2
        (neErr_vField (fun k j => neErr_vStr k j) kvs "make")
        (neErr_vField (fun k j => neErr_vStr k j) kvs "model"))
        (neErr_vField (fun k j => neErr_vInt k j) kvs "year"))
      es h
  all_goals (injection h with h2; subst h2; simp)

/-- Counterexample for C7: validating the empty object reports all five
missing required fields, not a single first violation. -/
theorem first_violation_only_cex :
    validateReport (Json.obj []) = .error
      ["potential_problems: Field required", "severity: Field required",
       "next_steps: Field required", "estimated_cost: Field required",
       "disclaimers: Field required"] ∧
    (errsOf (validateReport (Json.obj []))).length = 5 := ⟨rfl, rfl⟩

/-- C7 (amended): a mismatching mapping fails validation with a
nonempty list of human-readable violation descriptions, one per
violation, concatenated in field declaration order; in particular a
missing `severity` field always contributes its required-field
description to the list. -/
theorem validation_lists_all_violations :
    (∀ kvs : List (String × Json), getField kvs "severity" = none →
        ∃ es, validateReport (Json.obj kvs) = .error es ∧
          "severity: Field required" ∈ es) ∧
    (∀ (j : Json) (es : List String), validateReport j = .error es → es ≠ []) ∧
    (∀ (j : Json) (es : List String), validateVehicle j = .error es → es ≠ []) := by
  refine ⟨?_, fun j => neErr_validateReport j, fun j => neErr_validateVehicle j⟩
  intro kvs hg
  have hf2 : vField kvs "severity" vSeverity = .error ["severity: Field required"] := by
    simp [vField, vSubField, hg]
  have h2 : errsOf (vField kvs "severity" vSeverity) = ["severity: Field required"] := by
    rw [hf2]; rfl
  rcases hC : merge2 (merge2 (merge2 (merge2
      (vField kvs "potential_problems" (vList vProblem))
      (vField kvs "severity" vSeverity))
      (vField kvs "next_steps" (vList vStr)))
      (vField kvs "estimated_cost" vCost))
      (vField kvs "disclaimers" (vList vStr)) with esC | okC
  · refine ⟨esC, ?_, ?_⟩
    · simp [validateReport, hC, Except.map]
    · have he := error_eq_of_errsOf hC
      rw [errsOf_merge2, errsOf_merge2, errsOf_merge2, errsOf_merge2, h2] at he
      rw [← he]
      simp
  · exfalso
    have h0 : errsOf (merge2 (merge2 (merge2 (merge2
        (vField kvs "potential_problems" (vList vProblem))
        (vField kvs "severity" vSeverity))
        (vField kvs "next_steps" (vList vStr)))
        (vField kvs "estimated_cost" vCost))
        (vField kvs "disclaimers" (vList vStr))) = [] := by
      rw [hC]; rfl
    rw [errsOf_merge2, errsOf_merge2, errsOf_merge2, errsOf_merge2, h2] at h0
    simp at h0

/-- Witness for C7 (amended): the object `{"foo": "bar"}` misses
`severity`, and its concrete violation list is nonempty. -/
theorem validation_lists_all_violations_witness :
    getField [("foo", Json.str "bar")] "severity" = none ∧
    ["potential_problems: Field required", "severity: Field required",
     "next_steps: Field required", "estimated_cost: Field required",
     "disclaimers: Field required"] ≠ ([] : List String) :=
  ⟨rfl, validation_lists_all_violations.2.1 (Json.obj [("foo", Json.str "bar")]) _ rfl⟩

/-! ## Shape lemmas for the success bodies -/

/-- A serialized `Problem` has the `Problem` shape. -/
theorem isProblemJson_problemToJson (p : Problem) :
    isProblemJson (problemToJson p) = true := by
  obtain ⟨n, d⟩ := p
  rfl

/-- A serialized `Severity` has the `Severity` shape. -/
theorem isSeverityJson_severityToJson (s : Severity) :
    isSeverityJson (severityToJson s) = true := by
  obtain ⟨lv, msg⟩ := s
  cases lv <;> rfl

/-- A serialized `EstimatedCost` has the `EstimatedCost` shape. -/
theorem isCostJson_costToJson (c : EstimatedCost) :
    isCostJson (costToJson c) = true := by
  obtain ⟨r, d⟩ := c
  rfl

/-- Every serialized report fully satisfies the `DiagnosticReport`
shape. -/
theorem reportToJson_conforms (r : DiagnosticReportResponse) :
    conformsReport (reportToJson r) = true := by
  obtain ⟨pp, sev, ns, ec, ds⟩ := r
  simp only [reportToJson, conformsReport, Bool.and_eq_true]
  refine ⟨⟨⟨⟨?_, isSeverityJson_severityToJson sev⟩, ?_⟩,
    isCostJson_costToJson ec⟩, ?_⟩
  · simp only [List.all_eq_true]
    intro x hx
    obtain ⟨p0, _, rfl⟩ := List.mem_map.mp hx
    exact isProblemJson_problemToJson p0
  · simp only [List.all_eq_true]
    intro x hx
    obtain ⟨s0, _, rfl⟩ := List.mem_map.mp hx
    rfl
  · simp only [List.all_eq_true]
    intro x hx
    obtain ⟨s0, _, rfl⟩ := List.mem_map.mp hx
    rfl

/-- Every serialized vehicle fully satisfies the `Vehicle` shape. -/
theorem vehicleToJson_conforms (v : Vehicle) :
    conformsVehicle (vehicleToJson v) = true := by
  obtain ⟨mk, md, yr⟩ := v
  rfl

/-- Outcome invariant of the diagnostic handler body. -/
theorem handleDiag_inv (j : Json) :
    outcomeInv (fun r => conformsReport (reportToJson r)) (handleDiag j) := by
  rcases hm : errMembership j with _ | b
  · simp [handleDiag, hm, outcomeInv]
  · cases b
    · rcases hv : validateReport j with es | r
      · simp [handleDiag, hm, hv, outcomeInv]
      · simp [handleDiag, hm, hv, outcomeInv, reportToJson_conforms]
    · rcases hs : errSubscript j with _ | v
      · simp [handleDiag, hm, hs, outcomeInv]
      · simp [handleDiag, hm, hs, outcomeInv]

/-- Outcome invariant of the vehicle handler body. -/
theorem handleVehicle_inv (j : Json) :
    outcomeInv (fun v => conformsVehicle (vehicleToJson v)) (handleVehicle j) := by
  rcases hm : errMembership j with _ | b
  · simp [handleVehicle, hm, outcomeInv]
  · cases b
    · rcases hv : validateVehicle j with es | r
      · simp [handleVehicle, hm, hv, outcomeInv]
      · simp [handleVehicle, hm, hv, outcomeInv, vehicleToJson_conforms]
    · rcases hs : errSubscript j with _ | v
      · simp [handleVehicle, hm, hs, outcomeInv]
      · simp [handleVehicle, hm, hs, outcomeInv]

/-- C1 (amended): for all four operations and every gateway result, a
success response always fully satisfies the `DiagnosticReport` or
`Vehicle` shape; every non-success outcome is either an `ErrorPayload`
failure with server-error status 500 or an exception escaping the
handler (for gateway JSON on which the `"error"` membership test or
subscript raises `TypeError`) — a partial or malformed result is never
returned as a success. -/
theorem success_is_well_formed :
    (∀ (respond : String → Option String) (req : ConversationTurnRequest),
        outcomeInv (fun r => conformsReport (reportToJson r))
          (diagnose_from_conversation respond req)) ∧
    (∀ rt : Option String,
        outcomeInv (fun r => conformsReport (reportToJson r))
          (diagnose_from_image rt)) ∧
    (∀ rt : Option String,
        outcomeInv (fun v => conformsVehicle (vehicleToJson v))
          (identify_vehicle_from_image rt)) ∧
    (∀ (respond : String → Option String) (q : String),
        outcomeInv (fun v => conformsVehicle (vehicleToJson v))
          (identify_vehicle_from_text respond q)) :=
  ⟨fun _ _ => handleDiag_inv _, fun _ => handleDiag_inv _,
   fun _ => handleVehicle_inv _, fun _ _ => handleVehicle_inv _⟩

/-- Counterexample for C1 as stated: when the LLM replies with the bare
JSON number `5`, the gateway succeeds with a malformed result, yet the
handler neither returns a success nor converts it to an `ErrorPayload`:
the `"error" in llm_result` test raises `TypeError` and the exception
escapes the handler. -/
theorem success_is_well_formed_cex :
    diagnose_from_conversation (fun _ => some "5") ⟨⟨"Honda", "Civic", 2015⟩, []⟩ =
      HandlerOutcome.crash ∧
    validateReport (Json.num 5) = .error [starArgMsg] := ⟨rfl, rfl⟩

/-! ## Round-trip lemmas for conforming values -/

/-- A JSON string validates to itself. -/
theorem str_roundtrip (p : String) {x : Json} (h : isStrJson x = true) :
    ∃ s, vStr p x = .ok s ∧ Json.str s = x := by
  cases x
  case str s => exact ⟨s, rfl, rfl⟩
  all_goals simp [isStrJson] at h

/-- A `Problem`-shaped value validates and serializes back unchanged. -/
theorem problem_roundtrip (p : String) {x : Json} (h : isProblemJson x = true) :
    ∃ q, vProblem p x = .ok q ∧ problemToJson q = x := by
  unfold isProblemJson at h
  split at h
  · rename_i n d
    exact ⟨⟨n, d⟩, rfl, rfl⟩
  · simp at h

/-- A `Severity`-shaped value validates and serializes back unchanged. -/
theorem severity_roundtrip (p : String) {x : Json} (h : isSeverityJson x = true) :
    ∃ q, vSeverity p x = .ok q ∧ severityToJson q = x := by
  unfold isSeverityJson at h
  split at h
  · rename_i l m
    simp only [Bool.or_eq_true, decide_eq_true_eq] at h
    rcases h with (rfl | rfl) | rfl
    · exact ⟨⟨.CRITICAL, m⟩, rfl, rfl⟩
    · exact ⟨⟨.CAUTION, m⟩, rfl, rfl⟩
    · exact ⟨⟨.INFORMATION, m⟩, rfl, rfl⟩
  · simp at h

/-- An `EstimatedCost`-shaped value validates and serializes back
unchanged. -/
theorem cost_roundtrip (p : String) {x : Json} (h : isCostJson x = true) :
    ∃ q, vCost p x = .ok q ∧ costToJson q = x := by
  unfold isCostJson at h
  split at h
  · rename_i r d
    exact ⟨⟨r, d⟩, rfl, rfl⟩
  · simp at h

/-- Element-wise round trip for lists. -/
theorem elems_roundtrip {α : Type} (f : Json → VRes α) (g : α → Json) :
    ∀ l : List Json, (∀ x ∈ l, ∃ a, f x = .ok a ∧ g a = x) →
      ∃ as, vElems f l = .ok as ∧ as.map g = l := by
  intro l
  induction l with
  | nil => exact fun _ => ⟨[], rfl, rfl⟩
  | cons x xs ih =>
    intro hl
    obtain ⟨a, ha, hga⟩ := hl x (by simp)
    obtain ⟨as, has, hmap⟩ := ih (fun y hy => hl y (by simp [hy]))
    refine ⟨a :: as, ?_, ?_⟩
    · simp [vElems, ha, has, merge2, Except.map]
    · simp [hmap, hga]

/-- C5: every JSON value that fully conforms to the `DiagnosticReport`
shape (correct field names and types, severity level in the three-valued
enumeration) validates successfully, and serializing the validated
result reproduces the input exactly — no field added, dropped or
altered. -/
theorem conforming_report_roundtrip :
    ∀ j : Json, conformsReport j = true →
      (validateReport j).map reportToJson = .ok j := by
  intro j h
  unfold conformsReport at h
  split at h
  · rename_i ps sv ns ec ds
    simp only [Bool.and_eq_true] at h
    obtain ⟨⟨⟨⟨hps, hsv⟩, hns⟩, hec⟩, hds⟩ := h
    obtain ⟨pl, hpl, hplmap⟩ := elems_roundtrip (vProblem "potential_problems")
      problemToJson ps
      (fun x hx => problem_roundtrip _ (List.all_eq_true.mp hps x hx))
    obtain ⟨sev, hsev, hsevmap⟩ := severity_roundtrip "severity" hsv
    obtain ⟨nss, hnss, hnssmap⟩ := elems_roundtrip (vStr "next_steps") Json.str ns
      (fun x hx => str_roundtrip _ (List.all_eq_true.mp hns x hx))
    obtain ⟨cost, hcost, hcostmap⟩ := cost_roundtrip "estimated_cost" hec
    obtain ⟨dss, hdss, hdssmap⟩ := elems_roundtrip (vStr "disclaimers") Json.str ds
      (fun x hx => str_roundtrip _ (List.all_eq_true.mp hds x hx))
    have hv : validateReport (Json.obj
        [("potential_problems", Json.arr ps), ("severity", sv),
         ("next_steps", Json.arr ns), ("estimated_cost", ec),
         ("disclaimers", Json.arr ds)]) = .ok ⟨pl, sev, nss, cost, dss⟩ := by
      simp [validateReport, vField, vSubField, getField, vList, hpl, hsev,
        hnss, hcost, hdss, merge2, Except.map]
    rw [hv]
    simp only [Except.map, reportToJson, hplmap, hsevmap, hnssmap, hcostmap, hdssmap]
  · simp at h

/-- Witness for C5: a concrete conforming report value round-trips
unchanged. -/
theorem conforming_report_roundtrip_witness :
    (validateReport (Json.obj
      [("potential_problems", Json.arr [Json.obj
          [("name", Json.str "Low tire pressure"),
           ("description", Json.str "Underinflated tires")]]),
       ("severity", Json.obj
          [("level", Json.str "INFORMATION"), ("message", Json.str "Minor")]),
       ("next_steps", Json.arr [Json.str "Inflate tires"]),
       ("estimated_cost", Json.obj
          [("range", Json.str "$0-$20"), ("disclaimer", Json.str "Estimate only")]),
       ("disclaimers", Json.arr [])])).map reportToJson =
    .ok (Json.obj
      [("potential_problems", Json.arr [Json.obj
          [("name", Json.str "Low tire pressure"),
           ("description", Json.str "Underinflated tires")]]),
       ("severity", Json.obj
          [("level", Json.str "INFORMATION"), ("message", Json.str "Minor")]),
       ("next_steps", Json.arr [Json.str "Inflate tires"]),
       ("estimated_cost", Json.obj
          [("range", Json.str "$0-$20"), ("disclaimer", Json.str "Estimate only")]),
       ("disclaimers", Json.arr [])]) :=
  conforming_report_roundtrip _ rfl

/-- C9: the end-to-end conversation scenario: for the vehicle
Honda Civic 2015 with the single user turn "car shakes at idle", when
the gateway returns the fully conforming report JSON, the handler
returns exactly that object, unchanged, as a success. -/
theorem honda_civic_scenario :
    diagnose_from_conversation
      (fun _ => some "\x7b\"potential_problems\":[\x7b\"name\":\"Worn motor mount\",\"description\":\"...\"\x7d],\"severity\":\x7b\"level\":\"CAUTION\",\"message\":\"...\"\x7d,\"next_steps\":[\"Inspect mounts\"],\"estimated_cost\":\x7b\"range\":\"$150-$400\",\"disclaimer\":\"...\"\x7d,\"disclaimers\":[]\x7d")
      ⟨⟨"Honda", "Civic", 2015⟩, [⟨Role.user, "car shakes at idle"⟩]⟩ =
    HandlerOutcome.success
      ⟨[⟨"Worn motor mount", "..."⟩], ⟨SevLevel.CAUTION, "..."⟩,
       ["Inspect mounts"], ⟨"$150-$400", "..."⟩, []⟩ ∧
    reportToJson
      ⟨[⟨"Worn motor mount", "..."⟩], ⟨SevLevel.CAUTION, "..."⟩,
       ["Inspect mounts"], ⟨"$150-$400", "..."⟩, []⟩ =
    Json.obj
      [("potential_problems", Json.arr [Json.obj
          [("name", Json.str "Worn motor mount"), ("description", Json.str "...")]]),
       ("severity", Json.obj
          [("level", Json.str "CAUTION"), ("message", Json.str "...")]),
       ("next_steps", Json.arr [Json.str "Inspect mounts"]),
       ("estimated_cost", Json.obj
          [("range", Json.str "$150-$400"), ("disclaimer", Json.str "...")]),
       ("disclaimers", Json.arr [])] := ⟨rfl, rfl⟩

/-! ## Replacement equations -/

/-- Any sufficient amount of fuel computes the same replacement. -/
theorem pyReplaceFuel_irrel (pat rep : List Char) :
    ∀ f1 f2 s, s.length ≤ f1 → s.length ≤ f2 →
      pyReplaceFuel pat rep f1 s = pyReplaceFuel pat rep f2 s := by
  intro f1
  induction f1 with
  | zero =>
    intro f2 s h1 h2
    have hs : s = [] := List.length_eq_zero.mp (Nat.le_zero.mp h1)
    subst hs
    simp [pyReplaceFuel]
  | succ f1 ih =>
    intro f2 s h1 h2
    cases s with
    | nil => simp [pyReplaceFuel]
    | cons c rest =>
      simp only [List.length_cons] at h1 h2
      cases f2 with
      | zero => omega
      | succ f2 =>
        cases hl : leadsWith pat (c :: rest) <;>
          simp only [pyReplaceFuel, hl, if_true, if_false, Bool.false_eq_true,
            reduceIte]
        · congr 1
          exact ih f2 rest (by omega) (by omega)
        · congr 1
          exact ih f2 (List.drop (pat.length - 1) rest)
            (by rw [List.length_drop]; omega) (by rw [List.length_drop]; omega)

/-- Unfolding: the empty string. -/
theorem pyRepl_nil (pat rep : List Char) : pyRepl pat rep [] = [] := rfl

/-- Unfolding: a match at the head replaces it and continues behind it. -/
theorem pyRepl_cons_match {pat : List Char} (rep : List Char) {c : Char}
    {rest : List Char} (h : leadsWith pat (c :: rest) = true) :
    pyRepl pat rep (c :: rest) =
      rep ++ pyRepl pat rep (List.drop (pat.length - 1) rest) := by
  unfold pyRepl
  simp only [List.length_cons, pyReplaceFuel, h, if_true, reduceIte]
  congr 1
  exact pyReplaceFuel_irrel pat rep rest.length (List.drop (pat.length - 1) rest).length
    (List.drop (pat.length - 1) rest) (by rw [List.length_drop]; omega) le_rfl

/-- Unfolding: no match at the head keeps the character. -/
theorem pyRepl_cons_nomatch {pat : List Char} (rep : List Char) {c : Char}
    {rest : List Char} (h : leadsWith pat (c :: rest) = false) :
    pyRepl pat rep (c :: rest) = c :: pyRepl pat rep rest := by
  unfold pyRepl
  simp only [List.length_cons, pyReplaceFuel, h, Bool.false_eq_true, reduceIte]

/-! ## Pattern-occurrence algebra -/

/-- A pattern leading an empty string is empty. -/
theorem leadsWith_nil {pat : List Char} (h : leadsWith pat [] = true) : pat = [] := by
  cases pat with
  | nil => rfl
  | cons p ps => simp [leadsWith] at h

/-- A leading pattern still leads after extending the string. -/
theorem leadsWith_append_right {pat x : List Char} (z : List Char)
    (h : leadsWith pat x = true) : leadsWith pat (x ++ z) = true := by
  induction pat generalizing x with
  | nil => simp [leadsWith]
  | cons p ps ih =>
    cases x with
    | nil => simp [leadsWith] at h
    | cons c cs =>
      simp only [leadsWith, Bool.and_eq_true] at h
      simp only [List.cons_append, leadsWith, Bool.and_eq_true]
      exact ⟨h.1, ih h.2⟩

/-- A pattern that avoids the character `d` leads `x ++ d :: y` exactly
when it leads `x`. -/
theorem leadsWith_sep {pat : List Char} {d : Char} (hd : ∀ a ∈ pat, a ≠ d) :
    ∀ x y : List Char, leadsWith pat (x ++ d :: y) = leadsWith pat x := by
  induction pat with
  | nil => intro x y; simp [leadsWith]
  | cons p ps ih =>
    intro x y
    cases x with
    | nil =>
      simp only [List.nil_append, leadsWith]
      have : (p == d) = false := by
        simp only [beq_eq_false_iff_ne]
        exact hd p (by simp)
      simp [this]
    | cons c cs =>
      simp only [List.cons_append, leadsWith, List.append_eq]
      rw [ih (fun a ha => hd a (by simp [ha])) cs y]

/-- A leading pattern is no longer than the string. -/
theorem leadsWith_length {pat s : List Char} (h : leadsWith pat s = true) :
    pat.length ≤ s.length := by
  induction pat generalizing s with
  | nil => simp
  | cons p ps ih =>
    cases s with
    | nil => simp [leadsWith] at h
    | cons c cs =>
      simp only [leadsWith, Bool.and_eq_true] at h
      simpa using ih h.2

/-- A leading concatenation means its first part leads. -/
theorem leadsWith_of_append {a b x : List Char}
    (h : leadsWith (a ++ b) x = true) : leadsWith a x = true := by
  induction a generalizing x with
  | nil => simp [leadsWith]
  | cons p ps ih =>
    cases x with
    | nil => simp [leadsWith] at h
    | cons c cs =>
      simp only [List.cons_append, leadsWith, Bool.and_eq_true] at h ⊢
      exact ⟨h.1, ih h.2⟩

/-- An occurrence in a string is an occurrence in any extension. -/
theorem hasPat_append_left {pat x : List Char} (z : List Char)
    (h : hasPat pat x = true) : hasPat pat (x ++ z) = true := by
  induction x with
  | nil =>
    simp only [hasPat] at h
    have : pat = [] := leadsWith_nil h
    subst this
    cases z <;> simp [hasPat, leadsWith]
  | cons c cs ih =>
    simp only [hasPat, Bool.or_eq_true] at h
    rcases h with h | h
    · simp only [List.cons_append, hasPat, Bool.or_eq_true]
      exact Or.inl (leadsWith_append_right z h)
    · simp only [List.cons_append, hasPat, Bool.or_eq_true]
      exact Or.inr (ih h)

/-- An occurrence in a trimmed-from-the-left string occurs in the
original. -/
theorem hasPat_stripLead {pat : List Char} {q : Char → Bool} :
    ∀ {s : List Char}, hasPat pat (stripLead q s) = true → hasPat pat s = true := by
  intro s
  induction s with
  | nil => simp [stripLead]
  | cons c cs ih =>
    intro h
    by_cases hq : q c = true
    · simp only [stripLead, hq, if_true, reduceIte] at h
      simp only [hasPat, Bool.or_eq_true]
      exact Or.inr (ih h)
    · simp only [stripLead, hq, Bool.false_eq_true, reduceIte] at h
      exact h

/-- Trimming from the right keeps a prefix of the original. -/
theorem stripTrail_pre (q : Char → Bool) :
    ∀ s : List Char, ∃ z, stripTrail q s ++ z = s := by
  intro s
  induction s with
  | nil => exact ⟨[], rfl⟩
  | cons c cs ih =>
    obtain ⟨z, hz⟩ := ih
    by_cases hc : stripTrail q cs = [] ∧ q c = true
    · refine ⟨c :: cs, ?_⟩
      simp only [stripTrail, hc.1, hc.2]
      simp
    · refine ⟨z, ?_⟩
      simp only [stripTrail]
      rw [if_neg (by simpa [Bool.and_eq_true] using hc)]
      simp [hz]

/-- An occurrence in a trimmed-from-the-right string occurs in the
original. -/
theorem hasPat_stripTrail {pat : List Char} {q : Char → Bool} {s : List Char}
    (h : hasPat pat (stripTrail q s) = true) : hasPat pat s = true := by
  obtain ⟨z, hz⟩ := stripTrail_pre q s
  rw [← hz]
  exact hasPat_append_left z h

/-- An occurrence in a stripped string occurs in the original. -/
theorem hasPat_pyStrip {pat s : List Char}
    (h : hasPat pat (pyStrip s) = true) : hasPat pat s = true :=
  hasPat_stripTrail (hasPat_stripLead h)

/-- An occurrence of the fence opener contains the fence marker. -/
theorem hasPat_tick3_of_tick7 {x : List Char}
    (h : hasPat tick7 x = true) : hasPat tick3 x = true := by
  induction x with
  | nil =>
    simp only [hasPat] at h
    exact absurd (leadsWith_nil h) (by simp [tick7])
  | cons c cs ih =>
    simp only [hasPat, Bool.or_eq_true] at h ⊢
    rcases h with h | h
    · exact Or.inl (leadsWith_of_append (a := tick3) (b := ['j', 's', 'o', 'n'])
        (by simpa [tick7, tick3] using h))
    · exact Or.inr (ih h)

/-- Replacement leaves a string without occurrences unchanged. -/
theorem pyRepl_no_occur {pat : List Char} (rep : List Char) :
    ∀ {s : List Char}, hasPat pat s = false → pyRepl pat rep s = s := by
  intro s
  induction s with
  | nil => intro _; rfl
  | cons c cs ih =>
    intro h
    simp only [hasPat, Bool.or_eq_false_iff] at h
    rw [pyRepl_cons_nomatch rep h.1, ih h.2]

/-- A character foreign to the pattern never matches at the head. -/
theorem leadsWith_head_sep {pat : List Char} {d : Char} (hpat : pat ≠ [])
    (hd : ∀ a ∈ pat, a ≠ d) (y : List Char) :
    leadsWith pat (d :: y) = false := by
  cases pat with
  | nil => exact absurd rfl hpat
  | cons p ps =>
    have hp : (p == d) = false := by
      simp only [beq_eq_false_iff_ne]
      exact hd p (by simp)
    simp [leadsWith, hp]

/-- Replacement distributes over a separator character foreign to the
pattern: the scan never crosses it. -/
theorem pyRepl_split {pat : List Char} (rep : List Char) {d : Char}
    (hpat : pat ≠ []) (hd : ∀ a ∈ pat, a ≠ d) :
    ∀ x y : List Char,
      pyRepl pat rep (x ++ d :: y) = pyRepl pat rep x ++ d :: pyRepl pat rep y := by
  have hbase : ∀ y : List Char, pyRepl pat rep (d :: y) = d :: pyRepl pat rep y :=
    fun y => pyRepl_cons_nomatch rep (leadsWith_head_sep hpat hd y)
  have main : ∀ (n : Nat) (x y : List Char), x.length ≤ n →
      pyRepl pat rep (x ++ d :: y) = pyRepl pat rep x ++ d :: pyRepl pat rep y := by
    intro n
    induction n with
    | zero =>
      intro x y hx
      have hx0 : x = [] := List.length_eq_zero.mp (Nat.le_zero.mp hx)
      subst hx0
      simpa using hbase y
    | succ n ih =>
      intro x y hx
      cases x with
      | nil => simpa using hbase y
      | cons c cs =>
        simp only [List.length_cons] at hx
        have hsep : leadsWith pat (c :: (cs ++ d :: y)) = leadsWith pat (c :: cs) := by
          have := leadsWith_sep hd (c :: cs) y
          simpa [List.cons_append] using this
        cases hlw : leadsWith pat (c :: cs) with
        | false =>
          have hlw2 : leadsWith pat (c :: (cs ++ d :: y)) = false := hsep.trans hlw
          rw [show (c :: cs) ++ d :: y = c :: (cs ++ d :: y) from rfl,
            pyRepl_cons_nomatch rep hlw2, pyRepl_cons_nomatch rep hlw,
            ih cs y (by omega)]
          rfl
        | true =>
          have hlw2 : leadsWith pat (c :: (cs ++ d :: y)) = true := hsep.trans hlw
          rw [show (c :: cs) ++ d :: y = c :: (cs ++ d :: y) from rfl,
            pyRepl_cons_match rep hlw2, pyRepl_cons_match rep hlw]
          have hk : pat.length - 1 ≤ cs.length := by
            have := leadsWith_length hlw
            simp only [List.length_cons] at this
            omega
          rw [List.drop_append_of_le_length hk,
            ih (List.drop (pat.length - 1) cs) y (by rw [List.length_drop]; omega)]
          simp [List.append_assoc]
  exact fun x y => main x.length x y le_rfl


/-- Two backticks lead a string exactly when it starts with at least two
backticks. -/
theorem leadsWith_tick2_iff (x : List Char) :
    leadsWith [tickChar, tickChar] x = true ↔ 2 ≤ leadTicks x := by
  cases x with
  | nil => simp [leadsWith, leadTicks]
  | cons a as =>
    cases as with
    | nil =>
      by_cases ha : a = tickChar
      · subst ha
        simp [leadsWith, leadTicks]
      · have haa : (tickChar == a) = false := by
          simp only [beq_eq_false_iff_ne]
          exact fun h => ha h.symm
        simp [leadsWith, leadTicks, haa, ha]
    | cons b bs =>
      by_cases ha : a = tickChar
      · subst ha
        by_cases hb : b = tickChar
        · subst hb
          simp [leadsWith, leadTicks]
          try omega
        · have hbb : (tickChar == b) = false := by
            simp only [beq_eq_false_iff_ne]
            exact fun h => hb h.symm
          simp [leadsWith, leadTicks, hbb, hb]
      · have haa : (tickChar == a) = false := by
          simp only [beq_eq_false_iff_ne]
          exact fun h => ha h.symm
        simp [leadsWith, leadTicks, haa, ha]

/-- The fence marker never occurs in the output of its own removal, and
the output starts with the residue of the leading backtick run. -/
theorem repl3_inv : ∀ (n : Nat) (s : List Char), s.length ≤ n →
    hasPat tick3 (pyRepl tick3 [] s) = false ∧
    leadTicks (pyRepl tick3 [] s) = leadTicks s % 3 := by
  intro n
  induction n with
  | zero =>
    intro s h
    have hs : s = [] := List.length_eq_zero.mp (Nat.le_zero.mp h)
    subst hs
    exact ⟨rfl, rfl⟩
  | succ n ih =>
    intro s hs
    cases s with
    | nil => exact ⟨rfl, rfl⟩
    | cons c rest =>
      simp only [List.length_cons] at hs
      cases hlw : leadsWith tick3 (c :: rest) with
      | true =>
        cases rest with
        | nil => simp [tick3, leadsWith] at hlw
        | cons r1 rest1 =>
          cases rest1 with
          | nil => simp [tick3, leadsWith] at hlw
          | cons r2 rest2 =>
            have hshape := hlw
            simp only [tick3, leadsWith, Bool.and_eq_true, beq_iff_eq] at hshape
            obtain ⟨hc, hr1, hr2, -⟩ := hshape
            subst hc
            subst hr1
            subst hr2
            rw [pyRepl_cons_match [] hlw]
            have hdrop : List.drop (tick3.length - 1) (tickChar :: tickChar :: rest2) =
                rest2 := by simp [tick3]
            rw [hdrop]
            simp only [List.length_cons] at hs
            obtain ⟨ih1, ih2⟩ := ih rest2 (by omega)
            refine ⟨by simpa using ih1, ?_⟩
            simp only [List.nil_append]
            rw [ih2]
            have hl : leadTicks (tickChar :: tickChar :: tickChar :: rest2) =
                leadTicks rest2 + 3 := by
              simp [leadTicks]
              try omega
            rw [hl]
            omega
      | false =>
        rw [pyRepl_cons_nomatch [] hlw]
        obtain ⟨ih1, ih2⟩ := ih rest (by omega)
        by_cases hc : c = tickChar
        · subst hc
          have h2 : leadsWith [tickChar, tickChar] rest = false := by
            cases h2 : leadsWith [tickChar, tickChar] rest
            · rfl
            · have : leadsWith tick3 (tickChar :: rest) = true := by
                simp [tick3, leadsWith, h2]
              rw [this] at hlw
              simp at hlw
          have hle : leadTicks rest ≤ 1 := by
            by_contra hgt
            push_neg at hgt
            rw [(leadsWith_tick2_iff rest).mpr (by omega)] at h2
            simp at h2
          have hleR : leadTicks (pyRepl tick3 [] rest) ≤ 1 := by
            rw [ih2]
            omega
          have hR2 : leadsWith [tickChar, tickChar] (pyRepl tick3 [] rest) = false := by
            cases hx : leadsWith [tickChar, tickChar] (pyRepl tick3 [] rest)
            · rfl
            · have := (leadsWith_tick2_iff _).mp hx
              omega
          have hlwR : leadsWith tick3 (tickChar :: pyRepl tick3 [] rest) = false := by
            show ((tickChar == tickChar) &&
              leadsWith [tickChar, tickChar] (pyRepl tick3 [] rest)) = false
            rw [hR2]
            simp
          constructor
          · simp [hasPat, hlwR, ih1]
          · have hLl : leadTicks (tickChar :: pyRepl tick3 [] rest) =
                leadTicks (pyRepl tick3 [] rest) + 1 := by simp [leadTicks]
            have hLr : leadTicks (tickChar :: rest) = leadTicks rest + 1 := by
              simp [leadTicks]
            rw [hLl, hLr, ih2]
            omega
        · have hlwR : leadsWith tick3 (c :: pyRepl tick3 [] rest) = false := by
            have : (tickChar == c) = false := by
              simp only [beq_eq_false_iff_ne]
              exact fun h => hc h.symm
            simp [tick3, leadsWith, this]
          constructor
          · simp [hasPat, hlwR, ih1]
          · simp [leadTicks, hc]

/-- No fence marker survives its removal. -/
theorem hasPat_repl3 (s : List Char) :
    hasPat tick3 (pyRepl tick3 [] s) = false :=
  (repl3_inv s.length s le_rfl).1

/-! ## Strip lemmas -/

/-- Left strip is idempotent. -/
theorem stripLead_idem (q : Char → Bool) :
    ∀ s : List Char, stripLead q (stripLead q s) = stripLead q s := by
  intro s
  induction s with
  | nil => rfl
  | cons c cs ih =>
    by_cases hq : q c = true
    · simp [stripLead, hq, ih]
    · simp [stripLead, hq]

/-- Right strip is idempotent. -/
theorem stripTrail_idem (q : Char → Bool) :
    ∀ s : List Char, stripTrail q (stripTrail q s) = stripTrail q s := by
  intro s
  induction s with
  | nil => rfl
  | cons c cs ih =>
    simp only [stripTrail]
    split
    · rfl
    · rename_i hne
      simp only [stripTrail, ih]
      rw [if_neg hne]

/-- Left stripping preserves the absence of a trailing run. -/
theorem stripTrail_keep (q : Char → Bool) :
    ∀ {s : List Char}, stripTrail q s = s →
      stripTrail q (stripLead q s) = stripLead q s := by
  intro s
  induction s with
  | nil => intro _; rfl
  | cons c cs ih =>
    intro h
    by_cases hq : q c = true
    · have hcs : stripTrail q cs = cs := by
        simp only [stripTrail] at h
        split at h
        · simp at h
        · injection h with _ h2
      simp only [stripLead, hq, if_true, reduceIte]
      exact ih hcs
    · simp only [stripLead, hq, Bool.false_eq_true, reduceIte]
      exact h

/-- Python strip is idempotent. -/
theorem pyStrip_idem (s : List Char) : pyStrip (pyStrip s) = pyStrip s := by
  unfold pyStrip
  rw [stripTrail_keep isPyWs (stripTrail_idem isPyWs s), stripLead_idem]

/-- A trailing stripped character disappears. -/
theorem stripTrail_append_ws {q : Char → Bool} {d : Char} (hq : q d = true) :
    ∀ y : List Char, stripTrail q (y ++ [d]) = stripTrail q y := by
  intro y
  induction y with
  | nil => simp [stripTrail, hq]
  | cons c cs ih => simp only [List.cons_append, stripTrail, List.append_eq, ih]

/-- A trailing kept character fixes the whole string. -/
theorem stripTrail_append_keep {q : Char → Bool} {c : Char} (hq : q c = false) :
    ∀ y : List Char, stripTrail q (y ++ [c]) = y ++ [c] := by
  intro y
  induction y with
  | nil => simp [stripTrail, hq]
  | cons a as ih =>
    have hne : (as ++ [c]) ≠ [] := by simp
    simp only [List.cons_append, stripTrail, List.append_eq, ih]
    simp [hne]

/-- Stripping removes a single surrounding whitespace pair. -/
theorem pyStrip_wrap {d : Char} (hd : isPyWs d = true) (x : List Char) :
    pyStrip (d :: (x ++ [d])) = pyStrip x := by
  unfold pyStrip
  rw [show d :: (x ++ [d]) = (d :: x) ++ [d] from rfl, stripTrail_append_ws hd]
  rcases hT : stripTrail isPyWs x with _ | ⟨e, es⟩
  · have h0 : stripTrail isPyWs (d :: x) = [] := by simp [stripTrail, hT, hd]
    rw [h0]
  · have h0 : stripTrail isPyWs (d :: x) = d :: (e :: es) := by
      simp [stripTrail, hT]
    rw [h0]
    simp [stripLead, hd]

/-! ## The cleaning computation -/

/-- Fence-wrapped text strips to itself (it starts and ends with a
backtick). -/
theorem pyStrip_fenceWrap (p : List Char) : pyStrip (fenceWrap p) = fenceWrap p := by
  unfold pyStrip fenceWrap
  have h1 : tick7 ++ '\n' :: (p ++ '\n' :: tick3) =
      (tick7 ++ '\n' :: (p ++ ['\n', tickChar, tickChar])) ++ [tickChar] := by
    simp [tick3, List.append_assoc]
  rw [h1, stripTrail_append_keep (c := tickChar) rfl, ← h1]
  have h2 : isPyWs tickChar = false := rfl
  simp [tick7, stripLead, h2]

/-- The cleaning step on fence-wrapped text: the fences disappear and
the payload receives exactly the cleaning of the unwrapped payload
(before the final strip). -/
theorem cleanText_fenceWrap (p : List Char) :
    cleanText (fenceWrap p) = pyStrip (pyRepl tick3 [] (pyRepl tick7 [] p)) := by
  unfold cleanText
  rw [pyStrip_fenceWrap]
  have hd7 : ∀ a ∈ tick7, a ≠ '\n' := by decide
  have hd3 : ∀ a ∈ tick3, a ≠ '\n' := by decide
  have h7ne : tick7 ≠ [] := by decide
  have h3ne : tick3 ≠ [] := by decide
  rw [show fenceWrap p = tick7 ++ '\n' :: (p ++ '\n' :: tick3) from rfl,
    pyRepl_split [] h7ne hd7 tick7 (p ++ '\n' :: tick3),
    pyRepl_split [] h7ne hd7 p tick3]
  have e1 : pyRepl tick7 [] tick7 = [] := by rfl
  have e2 : pyRepl tick7 [] tick3 = tick3 := by rfl
  rw [e1, e2]
  simp only [List.nil_append]
  rw [pyRepl_cons_nomatch [] (leadsWith_head_sep h3ne hd3 _),
    pyRepl_split [] h3ne hd3 (pyRepl tick7 [] p) tick3]
  have e3 : pyRepl tick3 [] tick3 = [] := by rfl
  rw [e3]
  rw [show pyRepl tick3 [] (pyRepl tick7 [] p) ++ '\n' :: ([] : List Char) =
    pyRepl tick3 [] (pyRepl tick7 [] p) ++ ['\n'] from rfl]
  exact pyStrip_wrap (by decide) _

/-- The gateway cleaning step is idempotent. -/
theorem cleanText_idem (s : List Char) : cleanText (cleanText s) = cleanText s := by
  unfold cleanText
  have h3 : hasPat tick3
      (pyStrip (pyRepl tick3 [] (pyRepl tick7 [] (pyStrip s)))) = false := by
    cases hx : hasPat tick3 (pyStrip (pyRepl tick3 [] (pyRepl tick7 [] (pyStrip s))))
    · rfl
    · exact absurd (hasPat_pyStrip hx) (by simp [hasPat_repl3])
  have h7 : hasPat tick7
      (pyStrip (pyRepl tick3 [] (pyRepl tick7 [] (pyStrip s)))) = false := by
    cases hx : hasPat tick7 (pyStrip (pyRepl tick3 [] (pyRepl tick7 [] (pyStrip s))))
    · rfl
    · exact absurd (hasPat_tick3_of_tick7 hx) (by simp [h3])
  rw [pyStrip_idem, pyRepl_no_occur [] h7, pyRepl_no_occur [] h3, pyStrip_idem]

/-- C4 (amended): for every payload already stripped of surrounding
whitespace and containing no fence marker (no occurrence of three
backticks), the gateway cleaning of the markdown-fenced form yields the
same parsed JSON content as parsing the unwrapped payload; and the
cleaning step is idempotent on every input whatsoever. -/
theorem fence_strip :
    (∀ p : List Char, pyStrip p = p → hasPat tick3 p = false →
        jsonLoads (cleanText (fenceWrap p)) = jsonLoads p) ∧
    (∀ s : List Char, cleanText (cleanText s) = cleanText s) := by
  constructor
  · intro p h1 h2
    have h7 : hasPat tick7 p = false := by
      cases hx : hasPat tick7 p
      · rfl
      · exact absurd (hasPat_tick3_of_tick7 hx) (by simp [h2])
    rw [cleanText_fenceWrap, pyRepl_no_occur [] h7, pyRepl_no_occur [] h2, h1]
  · exact cleanText_idem

/-- Witness for C4 (amended): a concrete fenced payload parses to the
same content as the bare payload. -/
theorem fence_strip_witness :
    jsonLoads (cleanText (fenceWrap "\x7b\"a\": 1\x7d".toList)) =
      jsonLoads "\x7b\"a\": 1\x7d".toList :=
  fence_strip.1 _ rfl rfl

/-- Counterexample for C4 as stated: a payload that itself contains the
fence marker inside a JSON string is mangled by the cleaning step, so
cleaning the fenced form does not reproduce the parse of the unwrapped
payload. -/
theorem fence_strip_cex :
    jsonLoads (cleanText (fenceWrap "\x7b\"a\": \"\x60\x60\x60\"\x7d".toList)) ≠
      jsonLoads "\x7b\"a\": \"\x60\x60\x60\"\x7d".toList := by
  have h1 : jsonLoads (cleanText (fenceWrap "\x7b\"a\": \"\x60\x60\x60\"\x7d".toList)) =
      some (Json.obj [("a", Json.str "")]) := by rfl
  have h2 : jsonLoads "\x7b\"a\": \"\x60\x60\x60\"\x7d".toList =
      some (Json.obj [("a", Json.str "\x60\x60\x60")]) := by rfl
  rw [h1, h2]
  simp
